import Mathlib


/-!
Shallow embedding of the denoising engine of the DAS noise-denoising
repository (src/denoising/), together with proofs and refutations of the
frozen specification claims.

Conventions:
* sample values are modelled as exact rationals (`ℚ`) where the code only
  compares, sorts and averages them, and as reals (`ℝ`) where the code
  evaluates `exp`, `sqrt` or `log`;
* a 1D array is a `List`, a 2D array a `List (List _)` (rectangularity is
  carried as a hypothesis where it matters);
* external library calls (`scipy.ndimage`, `pywt`) are embedded from their
  documented semantics, since the repository delegates to them directly.
-/

namespace DAS


/-! ### Generic sorting and median (numpy `median`, scipy rank filters) -/

/-- Insert `x` into a sorted list, keeping it sorted (helper for `sortL`). -/
def insertSorted {α : Type} [LinearOrder α] (x : α) : List α → List α
  | [] => [x]
  | y :: ys => if x ≤ y then x :: y :: ys else y :: insertSorted x ys


/-- Insertion sort; models the ascending sort used by `np.median` and by
`scipy.ndimage`'s rank filters. -/
def sortL {α : Type} [LinearOrder α] : List α → List α
  | [] => []
  | x :: xs => insertSorted x (sortL xs)


/-- `np.median`: sort, take the middle element for odd length, the mean of the
two middle elements for even length. -/
def medianL {α : Type} [LinearOrderedField α] (l : List α) : α :=
  let s := sortL l
  let n := l.length
  if n % 2 = 1 then s.getD (n / 2) 0
  else (s.getD (n / 2 - 1) 0 + s.getD (n / 2) 0) / 2


/-! ### scipy boundary handling and 1D windows

`scipy.ndimage` filters use mode `'reflect'` by default, which is also the
mode every filter class in this repository passes: the signal is extended as
`(d c b a | a b c d | d c b a)`.  For a window of size `w` the footprint at
output position `i` covers input offsets `i - w/2 … i + w - 1 - w/2`
(one extra sample on the left for even `w`). -/

/-- Index into a length-`n` array after scipy `'reflect'` boundary extension. -/
def reflectIndex (n : ℕ) (j : ℤ) : ℕ :=
  if 0 < n then
    let m := j % (2 * (n : ℤ))
    if m < n then m.toNat else (2 * n - 1 - m).toNat
  else 0


/-- The window of `size` samples that a scipy filter reads around position
`i`, with `'reflect'` boundary handling; `d` is the value returned for an
(unreachable) out-of-range access. -/
def windowAt {α : Type} (data : List α) (d : α) (size i : ℕ) : List α :=
  (List.range size).map (fun (k : ℕ) =>
    data.getD (reflectIndex data.length ((i : ℤ) + (k : ℤ) - ((size / 2 : ℕ) : ℤ))) d)


/-! ### MedianFilter (src/denoising/median_filter.py)

`MedianFilter.denoise` forwards the configured `size` unchanged to
`scipy.ndimage.median_filter(data, size=size, mode='reflect')`, which is the
rank filter of rank `size*size… // 2` (1D: `size // 2`) over the footprint:
no odd-rounding of the window size happens anywhere on this path. -/

/-- `scipy.ndimage.median_filter` on a 1D array: at every position, sort the
`size` window samples and take the element of rank `size / 2`. -/
def scipyMedianFilter1d (data : List ℚ) (size : ℕ) : List ℚ :=
  (List.range data.length).map (fun i =>
    (sortL (windowAt data 0 size i)).getD (size / 2) 0)


/-- `MedianFilter.denoise` on a 1D array: the repository method passes the
window size through to scipy unchanged. -/
def MedianFilter.denoise (data : List ℚ) (size : ℕ) : List ℚ :=
  scipyMedianFilter1d data size


/-! ### Wavelet coefficient shrinkage (pywt.threshold, modes soft / hard)

`WaveletDenoising._denoise_1d` / `_denoise_2d` shrink every detail
coefficient with `pywt.threshold(c, threshold, mode)`.  pywt's documented
semantics: soft thresholding computes `data / |data| * max(|data| - value, 0)`
and hard thresholding replaces the values whose absolute value is strictly
less than `value` by 0 and keeps all others unchanged. -/

/-- `pywt.threshold(c, t, mode='soft')`.  Division by zero (at `c = 0`)
yields 0 in this embedding, which agrees with pywt substituting 0 there. -/
def softThreshold {α : Type} [LinearOrderedField α] (c t : α) : α :=
  (c / |c|) * max (|c| - t) 0


/-- `pywt.threshold(c, t, mode='hard')`: zero out exactly the coefficients
with `|c| < t` (strictly); `|c| = t` is kept. -/
def hardThreshold {α : Type} [LinearOrderedField α] (c t : α) : α :=
  if |c| < t then 0 else c


/-! ### Noise-level estimation (src/denoising/wavelet_denoising.py)

`pywt.wavedec` returns `[cA_n, cD_n, …, cD_1]` and `pywt.wavedec2` returns
`[cA_n, (cH_n, cV_n, cD_n), …, (cH_1, cV_1, cD_1)]`: in both, the detail
levels are ordered coarsest first and finest last (this is also the
CoefficientTree ordering invariant stated by the specification).  A 1D
coefficient list is embedded as `List (List ℚ)` (approximation first), a 2D
one as `List (List (List ℚ))`, where entry 0 holds the approximation and
every later entry is the list of orientation subbands of one level, each
subband flattened to its list of values. -/

/-- `WaveletDenoising._estimate_sigma` (1D path): MAD of the **last**
coefficient array — the finest-level detail subband — divided by 0.6745. -/
def WaveletDenoising.estimate_sigma {α : Type} [LinearOrderedField α]
    (coeffs : List (List α)) : α :=
  if 1 < coeffs.length then
    medianL ((coeffs.getLast?.getD []).map (fun c => |c|)) / (1349 / 2000)
  else 1


/-- `WaveletDenoising._denoise_2d`, lines 128–130 (the branch taken whenever
`len(coeffs) > 1`): `details = coeffs[1]` — the **first** detail entry after
the approximation, i.e. the *coarsest* level — pooled over its orientation
subbands, then `sigma = median(|details|) / 0.6745`. -/
def WaveletDenoising.sigma2d {α : Type} [LinearOrderedField α]
    (coeffs : List (List (List α))) : α :=
  medianL ((coeffs.getD 1 []).flatten.map (fun c => |c|)) / (1349 / 2000)


/-- The same estimator as the specification words it: σ from the
**finest-level** detail subbands (the last level of the coefficient list),
all orientation subbands of that level pooled before taking the median. -/
def sigma2dSpecified {α : Type} [LinearOrderedField α]
    (coeffs : List (List (List α))) : α :=
  medianL ((coeffs.getLast?.getD []).flatten.map (fun c => |c|)) / (1349 / 2000)


/-! ### Non-finite input handling (C8)

Sample values including the IEEE-754 non-finite ones are modelled by `FVal`.
`np.nan_to_num` (called with its defaults) replaces NaN by 0.0, `+inf` by the
largest finite double and `-inf` by the most negative finite double. -/

inductive FVal : Type where
  | finite (q : ℚ)
  | nan : FVal
  | posInf : FVal
  | negInf : FVal
deriving DecidableEq


/-- The largest finite IEEE-754 double, `(2^53 - 1) * 2^971`. -/
def float64Max : ℚ := (2 ^ 53 - 1) * 2 ^ 971


/-- `np.nan_to_num` with default arguments. -/
def nanToNum : FVal → FVal
  | .nan => .finite 0
  | .posInf => .finite float64Max
  | .negInf => .finite (-float64Max)
  | .finite q => .finite q


/-- The sanitization stage of `WaveletDenoising._denoise_1d`: the input is
handed to `pywt.wavedec` directly (line 85) — there is no replacement of
non-finite samples on the 1D path. -/
def WaveletDenoising.denoise1dPre (data : List FVal) : List FVal :=
  data


/-- The sanitization stage of `WaveletDenoising._denoise_2d`:
`data = np.nan_to_num(data)` (line 123) before `pywt.wavedec2`. -/
def WaveletDenoising.denoise2dPre (rows : List (List FVal)) : List (List FVal) :=
  rows.map (fun row => row.map nanToNum)


/-! ### DenoisingFactory (src/denoising/denoising_factory.py)

`create_denoiser` lowercases the requested type, dispatches on it, and on an
unknown type raises `ValueError` whose message names the offending input and
the fixed list `available_types = ['gaussian', 'moving_average', 'median']`.
The resolvable names, however, are `gaussian`, `moving_average`, `uniform`,
`median` and `wavelet`.  The raised message is embedded structurally as the
pair (offending input, listed names). -/

inductive DenoiserKind : Type where
  | gaussian : DenoiserKind
  | movingAverage : DenoiserKind
  | median : DenoiserKind
  | wavelet : DenoiserKind
deriving DecidableEq


/-- The `available_types` list interpolated into the `ValueError` message. -/
def availableTypes : List String := ["gaussian", "moving_average", "median"]


/-- Structured content of the `ValueError` raised on an unknown type. -/
structure FactoryError : Type where
  offending : String
  listed : List String
deriving DecidableEq


/-- `DenoisingFactory.create_denoiser`, the dispatch on the algorithm name.
The method first applies Python `str.lower` to its argument; `t` here stands
for that already-lowercased name (case folding itself is not modelled). -/
def DenoisingFactory.create_denoiser (t : String) :
    Except FactoryError DenoiserKind :=
  if t = "gaussian" then .ok .gaussian
  else if t = "moving_average" ∨ t = "uniform" then .ok .movingAverage
  else if t = "median" then .ok .median
  else if t = "wavelet" then .ok .wavelet
  else .error ⟨t, availableTypes⟩


/-! ### Configuration records passed through the factory (C9)

`create_denoiser(denoiser_type, **kwargs)` forwards `kwargs` verbatim to the
selected class constructor.  None of the constructors accepts `**kwargs`, so
Python's call semantics raise `TypeError` on any keyword that is not a
declared parameter; declared parameters that are absent take their default
values.  Parameter defaults are embedded from the constructor signatures. -/

inductive PVal : Type where
  | num (q : ℚ)
  | str (s : String)
  | none : PVal
deriving DecidableEq


/-- One declared constructor parameter: its keyword and its default. -/
structure Param : Type where
  key : String
  dflt : PVal
deriving DecidableEq


/-- `GaussianFilter.__init__(sigma=1.0, mode='reflect', cval=0.0,
sigma_raw=None, sigma_col=None, size=None)`. -/
def gaussianSig : List Param :=
  [⟨"sigma", .num 1⟩, ⟨"mode", .str "reflect"⟩, ⟨"cval", .num 0⟩,
   ⟨"sigma_raw", .none⟩, ⟨"sigma_col", .none⟩, ⟨"size", .none⟩]


/-- `MovingAverageFilter.__init__(window_size=3, axis=None, mode='reflect')`. -/
def movingAverageSig : List Param :=
  [⟨"window_size", .num 3⟩, ⟨"axis", .none⟩, ⟨"mode", .str "reflect"⟩]


/-- `MedianFilter.__init__(size=3, mode='reflect')`. -/
def medianSig : List Param :=
  [⟨"size", .num 3⟩, ⟨"mode", .str "reflect"⟩]


/-- `WaveletDenoising.__init__(wavelet='db4', level=4, threshold_mode='soft',
sigma_multiplier=1.0)`. -/
def waveletSig : List Param :=
  [⟨"wavelet", .str "db4"⟩, ⟨"level", .num 4⟩,
   ⟨"threshold_mode", .str "soft"⟩, ⟨"sigma_multiplier", .num 1⟩]


def sigOf : DenoiserKind → List Param
  | .gaussian => gaussianSig
  | .movingAverage => movingAverageSig
  | .median => medianSig
  | .wavelet => waveletSig


/-- Python keyword-argument binding against a signature without `**kwargs`:
the first keyword that matches no declared parameter raises `TypeError`
(reported here as the offending key); otherwise every declared parameter is
bound to the supplied value or, when absent, to its default. -/
def bindKwargs (sig : List Param) (kwargs : List (String × PVal)) :
    Except String (List (String × PVal)) :=
  match kwargs.find? (fun kv => !(sig.any (fun p => p.key = kv.1))) with
  | Option.some kv => .error kv.1
  | Option.none =>
      .ok (sig.map (fun p =>
        (p.key, ((kwargs.find? (fun kv => kv.1 = p.key)).map Prod.snd).getD p.dflt)))


/-- Outcome of `DenoisingFactory.create_denoiser(name, **kwargs)`. -/
inductive FactoryResult : Type where
  | ok (kind : DenoiserKind) (params : List (String × PVal))
  | valueError (e : FactoryError)
  | typeError (key : String)
deriving DecidableEq


/-- `DenoisingFactory.create_denoiser(name, **kwargs)`: dispatch on the name,
then bind the forwarded keyword arguments against the constructor. -/
def createDenoiserWith (name : String) (kwargs : List (String × PVal)) :
    FactoryResult :=
  match DenoisingFactory.create_denoiser name with
  | .error e => .valueError e
  | .ok k =>
      match bindKwargs (sigOf k) kwargs with
      | .error key => .typeError key
      | .ok ps => .ok k ps


/-! 2D bilateral filtering (lines 114–170). -/

/-- Number of columns of a 2D array, `data.shape[1]`. -/
def ncols {α : Type} (A : List (List α)) : ℕ := (A.head?.getD []).length


noncomputable section

/-- Window-size odd-forcing (`if window_size % 2 == 0: window_size += 1`,
lines 76–77 and 128–129). -/
def oddify (w : ℕ) : ℕ := if w % 2 = 0 then w + 1 else w


/-- `BilateralFilter._compute_spatial_weights_1d`: weights
`exp(-0.5 * (d / spatial_sigma)^2)` for distances `d = -half … half`,
indexed by `k = 0 … window_size - 1` with `d = k - half`. -/
def spatialWeights1d (window_size : ℕ) (spatial_sigma : ℝ) : List ℝ :=
  (List.range window_size).map (fun (k : ℕ) =>
    Real.exp (-(1 / 2) * (((k : ℝ) - ((window_size / 2 : ℕ) : ℝ)) / spatial_sigma) ^ 2))


/-- The truncated data window `data[start_idx:end_idx]` around `i`
(lines 88–92); `start_idx = max(0, i - half)` is ℕ-subtraction here. -/
def bilateralWindow (data : List ℝ) (half i : ℕ) : List ℝ :=
  (data.drop (i - half)).take (min data.length (i + half + 1) - (i - half))


/-- The slice
`spatial_weights[(half - (i - start_idx)):(half + (end_idx - i))]`
(lines 100–102) aligning the precomputed kernel with the truncated window. -/
def windowSpatialWeights (sw : List ℝ) (half n i : ℕ) : List ℝ :=
  (sw.drop (half - (i - (i - half)))).take
    ((half + (min n (i + half + 1) - i)) - (half - (i - (i - half))))


/-- Intensity-similarity weights over the window (lines 96–97):
`exp(-0.5 * ((s - center) / intensity_sigma)^2)`. -/
def intensityWeights (window : List ℝ) (center σi : ℝ) : List ℝ :=
  window.map (fun s => Real.exp (-(1 / 2) * ((s - center) / σi) ^ 2))


/-- `total_weights = window_spatial_weights * intensity_weights` (line 103). -/
def totalWeights (data : List ℝ) (σs σi : ℝ) (ws i : ℕ) : List ℝ :=
  List.zipWith (fun a b => a * b)
    (windowSpatialWeights (spatialWeights1d ws σs) (ws / 2) data.length i)
    (intensityWeights (bilateralWindow data (ws / 2) i) (data.getD i 0) σi)


/-- One output sample of the 1D bilateral filter (lines 86–110): the
normalized weighted average when the weight sum is positive, otherwise the
center value unchanged. -/
def bilateralStep1d (data : List ℝ) (σs σi : ℝ) (ws i : ℕ) : ℝ :=
  if 0 < (totalWeights data σs σi ws i).sum then
    (List.zipWith (fun a b => a * b) (bilateralWindow data (ws / 2) i)
      ((totalWeights data σs σi ws i).map
        (fun v => v / (totalWeights data σs σi ws i).sum))).sum
  else data.getD i 0


/-- `BilateralFilter._bilateral_filter_1d`. -/
def BilateralFilter.filter1d (data : List ℝ) (σs σi : ℝ) (window_size : ℕ) :
    List ℝ :=
  (List.range data.length).map (fun (i : ℕ) =>
    bilateralStep1d data σs σi (oddify window_size) i)


/-- Entry `A[i, j]`. -/
def mget (A : List (List ℝ)) (i j : ℕ) : ℝ := (A.getD i []).getD j 0


/-- `BilateralFilter._compute_spatial_weights_2d`:
`exp(-0.5 * (dx^2 + dy^2) / sigma^2)` over the window extent. -/
def spatialWeights2d (ws : ℕ) (σs : ℝ) : List (List ℝ) :=
  (List.range ws).map (fun (y : ℕ) => (List.range ws).map (fun (x : ℕ) =>
    Real.exp (-(1 / 2) * (((x : ℝ) - ((ws / 2 : ℕ) : ℝ)) ^ 2 +
      ((y : ℝ) - ((ws / 2 : ℕ) : ℝ)) ^ 2) / σs ^ 2)))


/-- The 2D slice `A[r0:r1, c0:c1]`. -/
def slice2d (A : List (List ℝ)) (r0 r1 c0 c1 : ℕ) : List (List ℝ) :=
  ((A.drop r0).take (r1 - r0)).map (fun row => (row.drop c0).take (c1 - c0))


/-- `np.sum` of a 2D array. -/
def sum2d (A : List (List ℝ)) : ℝ := (A.map List.sum).sum


/-- Elementwise map over a 2D array. -/
def map2d (f : ℝ → ℝ) (A : List (List ℝ)) : List (List ℝ) :=
  A.map (fun r => r.map f)


/-- Elementwise combination of two 2D arrays. -/
def zipWith2d (f : ℝ → ℝ → ℝ) (A B : List (List ℝ)) : List (List ℝ) :=
  List.zipWith (fun r s => List.zipWith f r s) A B


/-- The truncated 2D window around `(i, j)` (lines 141–147). -/
def bilateralWindow2d (A : List (List ℝ)) (half i j : ℕ) : List (List ℝ) :=
  slice2d A (i - half) (min A.length (i + half + 1))
    (j - half) (min (ncols A) (j + half + 1))


/-- The 2D kernel slice of lines 155–158. -/
def windowSpatialWeights2d (sw : List (List ℝ)) (half nr nc i j : ℕ) :
    List (List ℝ) :=
  slice2d sw (half - (i - (i - half))) (half + (min nr (i + half + 1) - i))
    (half - (j - (j - half))) (half + (min nc (j + half + 1) - j))


/-- `total_weights` of the 2D filter (lines 150–161). -/
def totalWeights2d (A : List (List ℝ)) (σs σi : ℝ) (ws i j : ℕ) :
    List (List ℝ) :=
  zipWith2d (fun a b => a * b)
    (windowSpatialWeights2d (spatialWeights2d ws σs) (ws / 2) A.length (ncols A) i j)
    (map2d (fun s => Real.exp (-(1 / 2) * ((s - mget A i j) / σi) ^ 2))
      (bilateralWindow2d A (ws / 2) i j))


/-- One output sample of the 2D bilateral filter (lines 138–168). -/
def bilateralStep2d (A : List (List ℝ)) (σs σi : ℝ) (ws i j : ℕ) : ℝ :=
  if 0 < sum2d (totalWeights2d A σs σi ws i j) then
    sum2d (zipWith2d (fun a b => a * b) (bilateralWindow2d A (ws / 2) i j)
      (map2d (fun v => v / sum2d (totalWeights2d A σs σi ws i j))
        (totalWeights2d A σs σi ws i j)))
  else mget A i j


/-- `BilateralFilter._bilateral_filter_2d`. -/
def BilateralFilter.filter2d (A : List (List ℝ)) (σs σi : ℝ) (window_size : ℕ) :
    List (List ℝ) :=
  (List.range A.length).map (fun (i : ℕ) =>
    (List.range (ncols A)).map (fun (j : ℕ) =>
      bilateralStep2d A σs σi (oddify window_size) i j))


/-- The pure spatial-Gaussian-weighted average of the truncated window at
position `i`: the bilateral output with the intensity term removed, spatial
kernel weights normalized to sum 1 (the specification's description of the
`intensity_sigma → ∞` degenerate case). -/
def spatialGaussianAverage1d (data : List ℝ) (σs : ℝ) (w i : ℕ) : ℝ :=
  (List.zipWith (fun a b => a * b) (bilateralWindow data (oddify w / 2) i)
    (windowSpatialWeights (spatialWeights1d (oddify w) σs)
      (oddify w / 2) data.length i)).sum /
  (windowSpatialWeights (spatialWeights1d (oddify w) σs)
    (oddify w / 2) data.length i).sum


/-! ### GaussianFilter and MovingAverageFilter (shape-relevant embeddings)

`GaussianFilter.denoise` delegates to `scipy.ndimage.gaussian_filter`
(kernel radius `int(4 * sigma + 0.5)`, normalized discrete Gaussian,
correlation with `'reflect'` boundary, applied along each axis in turn for a
2D input).  `MovingAverageFilter.denoise` delegates to
`scipy.ndimage.uniform_filter` (window mean, same boundary, separable). -/

/-- scipy kernel radius `int(truncate * sigma + 0.5)` with `truncate = 4`. -/
def gaussianRadius (σ : ℝ) : ℕ := (Int.floor (4 * σ + 1 / 2)).toNat


/-- scipy `_gaussian_kernel1d`: `exp(-0.5 / sigma^2 * x^2)` over
`x = -r … r`, normalized to sum 1. -/
def gaussianKernel (σ : ℝ) : List ℝ :=
  let phi := (List.range (2 * gaussianRadius σ + 1)).map (fun (k : ℕ) =>
    Real.exp (-(1 / 2) / σ ^ 2 * ((k : ℝ) - (gaussianRadius σ : ℝ)) ^ 2))
  phi.map (fun v => v / phi.sum)


/-- scipy 1D correlation with `'reflect'` boundary handling. -/
def correlate1d (data : List ℝ) (kernel : List ℝ) : List ℝ :=
  (List.range data.length).map (fun (i : ℕ) =>
    ((List.range kernel.length).map (fun (k : ℕ) =>
      kernel.getD k 0 *
        data.getD (reflectIndex data.length
          ((i : ℤ) + (k : ℤ) - ((kernel.length / 2 : ℕ) : ℤ))) 0)).sum)


/-- `GaussianFilter.denoise` on a 1D array. -/
def GaussianFilter.denoise1d (data : List ℝ) (σ : ℝ) : List ℝ :=
  correlate1d data (gaussianKernel σ)


/-- 1D correlation along axis 0 (down the columns) of a 2D array. -/
def correlateAxis0 (A : List (List ℝ)) (kernel : List ℝ) : List (List ℝ) :=
  (List.range A.length).map (fun (i : ℕ) =>
    (List.range (ncols A)).map (fun (j : ℕ) =>
      ((List.range kernel.length).map (fun (k : ℕ) =>
        kernel.getD k 0 *
          mget A (reflectIndex A.length
            ((i : ℤ) + (k : ℤ) - ((kernel.length / 2 : ℕ) : ℤ))) j)).sum))


/-- 1D correlation along axis 1 (within each row) of a 2D array. -/
def correlateAxis1 (A : List (List ℝ)) (kernel : List ℝ) : List (List ℝ) :=
  A.map (fun row => correlate1d row kernel)


/-- `GaussianFilter.denoise` on a 2D array: `scipy.ndimage.gaussian_filter`
applies the 1D pass along axis 0, then axis 1. -/
def GaussianFilter.denoise2d (A : List (List ℝ)) (σ : ℝ) : List (List ℝ) :=
  correlateAxis1 (correlateAxis0 A (gaussianKernel σ)) (gaussianKernel σ)


/-- `scipy.ndimage.uniform_filter1d`: the mean of the `size` window. -/
def uniformFilter1d (data : List ℝ) (size : ℕ) : List ℝ :=
  (List.range data.length).map (fun (i : ℕ) =>
    (windowAt data (0 : ℝ) size i).sum / (size : ℝ))


/-- Uniform filtering along axis 0 of a 2D array. -/
def uniformAxis0 (A : List (List ℝ)) (size : ℕ) : List (List ℝ) :=
  (List.range A.length).map (fun (i : ℕ) =>
    (List.range (ncols A)).map (fun (j : ℕ) =>
      ((List.range size).map (fun (k : ℕ) =>
        mget A (reflectIndex A.length
          ((i : ℤ) + (k : ℤ) - ((size / 2 : ℕ) : ℤ))) j)).sum / (size : ℝ)))


/-- Uniform filtering along axis 1 of a 2D array. -/
def uniformAxis1 (A : List (List ℝ)) (size : ℕ) : List (List ℝ) :=
  A.map (fun row => uniformFilter1d row size)


/-- `MovingAverageFilter.denoise` on a 1D array (scalar size, axis `None`). -/
def MovingAverageFilter.denoise1d (data : List ℝ) (ws : ℕ) : List ℝ :=
  uniformFilter1d data ws


/-- `MovingAverageFilter.denoise` on a 2D array (scalar size, axis `None`):
`scipy.ndimage.uniform_filter` is separable — axis 0, then axis 1. -/
def MovingAverageFilter.denoise2d (A : List (List ℝ)) (ws : ℕ) : List (List ℝ) :=
  uniformAxis1 (uniformAxis0 A ws) ws


/-- The 2D `size × size` window read by `scipy.ndimage.median_filter`
around `(i, j)`, flattened, `'reflect'` boundary on both axes. -/
def windowAt2d (A : List (List ℚ)) (size i j : ℕ) : List ℚ :=
  ((List.range size).map (fun (a : ℕ) =>
    (List.range size).map (fun (b : ℕ) =>
      (A.getD (reflectIndex A.length
          ((i : ℤ) + (a : ℤ) - ((size / 2 : ℕ) : ℤ))) []).getD
        (reflectIndex (ncols A)
          ((j : ℤ) + (b : ℤ) - ((size / 2 : ℕ) : ℤ))) 0))).flatten


/-- `scipy.ndimage.median_filter` on a 2D array: rank `size*size / 2` of the
sorted window. -/
def scipyMedianFilter2d (A : List (List ℚ)) (size : ℕ) : List (List ℚ) :=
  (List.range A.length).map (fun (i : ℕ) =>
    (List.range (ncols A)).map (fun (j : ℕ) =>
      (sortL (windowAt2d A size i j)).getD (size * size / 2) 0))


/-- `MedianFilter.denoise` on a 2D array (size forwarded unchanged). -/
def MedianFilter.denoise2d (A : List (List ℚ)) (size : ℕ) : List (List ℚ) :=
  scipyMedianFilter2d A size


/-! ### WaveletDenoising pipeline (shape-relevant embedding)

The wavelet transform itself lives in pywt; the repository's code is the
glue around it, so `wavedec`/`waverec` (and their 2D counterparts) are
parameters of the embedding and the claims about the pipeline are stated
for arbitrary transforms, with pywt's documented length guarantee
(reconstruction never shorter than the original) as a hypothesis where the
final crop relies on it. -/

/-- `_denoise_1d` up to and including thresholding: decompose, estimate σ
from the finest detail array, form the universal threshold
`sigma * multiplier * sqrt(2 * log n)`, keep the approximation array and
shrink every detail array (`soft = true` for mode `'soft'`). -/
def WaveletDenoising.thresholded1d (wavedec : List ℝ → List (List ℝ))
    (soft : Bool) (mult : ℝ) (data : List ℝ) : List (List ℝ) :=
  let coeffs := wavedec data
  let threshold := WaveletDenoising.estimate_sigma coeffs * mult *
    Real.sqrt (2 * Real.log (data.length : ℝ))
  coeffs.head?.getD [] :: coeffs.tail.map (fun d =>
    d.map (fun c => if soft then softThreshold c threshold else hardThreshold c threshold))


/-- `_denoise_1d`: reconstruct and crop to the input length whenever the
reconstruction length differs (lines 102–108). -/
def WaveletDenoising.denoise1d (wavedec : List ℝ → List (List ℝ))
    (waverec : List (List ℝ) → List ℝ) (soft : Bool) (mult : ℝ)
    (data : List ℝ) : List ℝ :=
  let recon := waverec (WaveletDenoising.thresholded1d wavedec soft mult data)
  if recon.length ≠ data.length then recon.take data.length else recon


/-- `_denoise_2d` up to and including thresholding (lines 122–141):
threshold from the pooled `coeffs[1]` subbands when more than one entry
exists, else 0; every detail subband of every level is shrunk. -/
def WaveletDenoising.thresholded2d
    (wavedec2 : List (List ℝ) → List (List (List ℝ)))
    (soft : Bool) (mult : ℝ) (A : List (List ℝ)) : List (List (List ℝ)) :=
  let coeffs := wavedec2 A
  let threshold := if 1 < coeffs.length then
      WaveletDenoising.sigma2d coeffs * mult *
        Real.sqrt (2 * Real.log ((A.length * ncols A : ℕ) : ℝ))
    else 0
  coeffs.head?.getD [] :: coeffs.tail.map (fun lvl =>
    lvl.map (fun d => d.map (fun c =>
      if soft then softThreshold c threshold else hardThreshold c threshold)))


/-- `_denoise_2d`: reconstruct and crop to `data.shape` (lines 143–145). -/
def WaveletDenoising.denoise2d
    (wavedec2 : List (List ℝ) → List (List (List ℝ)))
    (waverec2 : List (List (List ℝ)) → List (List ℝ)) (soft : Bool) (mult : ℝ)
    (A : List (List ℝ)) : List (List ℝ) :=
  ((waverec2 (WaveletDenoising.thresholded2d wavedec2 soft mult A)).take A.length).map
    (fun row => row.take (ncols A))


end

theorem insertSorted_perm {α : Type} [LinearOrder α] (x : α) (l : List α) :
    List.Perm (insertSorted x l) (x :: l) := by
  induction l with
  | nil => simp [insertSorted]
  | cons y ys ih =>
    by_cases h : x ≤ y
    · simp [insertSorted, h]
    · simp only [insertSorted, if_neg h]
      exact (ih.cons y).trans (List.Perm.swap x y ys)


theorem sortL_perm {α : Type} [LinearOrder α] (l : List α) :
    List.Perm (sortL l) l := by
  induction l with
  | nil => simp [sortL]
  | cons x xs ih => exact (insertSorted_perm x (sortL xs)).trans (ih.cons x)


theorem length_sortL {α : Type} [LinearOrder α] (l : List α) :
    (sortL l).length = l.length :=
  (sortL_perm l).length_eq


theorem length_windowAt {α : Type} (data : List α) (d : α) (size i : ℕ) :
    (windowAt data d size i).length = size := by
  simp [windowAt]


/-- `l.getD i d` is an element of `l` whenever `i` is in range. -/
theorem getD_mem_of_lt {α : Type} (l : List α) (i : ℕ) (d : α) (h : i < l.length) :
    l.getD i d ∈ l := by
  rw [List.getD_eq_getElem l d h]
  exact l.getElem_mem h


theorem getD_map_range {α : Type} (n i : ℕ) (f : ℕ → α) (d : α) (h : i < n) :
    ((List.range n).map f).getD i d = f i := by
  rw [List.getD_eq_getElem _ d (by simpa using h)]
  simp


/-- C4 counterexample: with the even configured size 2, position 1 of
`[0, 10, 0]` yields 10 (the upper median of the two-sample window `[0, 10]`),
while the odd-normalized size 3 yields the true median 0 at every position:
the window size is not normalized to the nearest larger odd integer. -/
theorem C4_counterexample :
    MedianFilter.denoise [0, 10, 0] 2 = [0, 10, 10] ∧
    MedianFilter.denoise [0, 10, 0] 3 = [0, 0, 0] := by
  constructor <;> rfl


theorem length_windowAt2d (A : List (List ℚ)) (size i j : ℕ) :
    (windowAt2d A size i j).length = size * size := by
  rw [windowAt2d, List.length_flatten, List.map_map]
  have h : (List.length ∘ fun (a : ℕ) => (List.range size).map
      (fun (b : ℕ) => (A.getD (reflectIndex A.length
          ((i : ℤ) + (a : ℤ) - ((size / 2 : ℕ) : ℤ))) []).getD
        (reflectIndex (ncols A)
          ((j : ℤ) + (b : ℤ) - ((size / 2 : ℕ) : ℤ))) 0)) = fun _ => size := by
    funext a
    simp
  rw [h, List.map_const']
  simp [List.sum_replicate, mul_comm]

/-- C4 (amended): the median filter uses the configured window size exactly
as given (no odd normalization), and on both the 1D and the 2D path every
output sample is a member of the value set of its surrounding input window
(the rank-`size/2` order statistic of the `size` window in 1D, the
rank-`size*size/2` order statistic of the `size × size` footprint in 2D) —
never an interpolated value. -/
theorem C4_order_statistic (data : List ℚ) (A : List (List ℚ)) (size i r c : ℕ)
    (hs : 0 < size) (hi : i < data.length) (hr : r < A.length) (hc : c < ncols A) :
    (MedianFilter.denoise data size).getD i 0 ∈ windowAt data 0 size i ∧
    ((MedianFilter.denoise2d A size).getD r []).getD c 0 ∈ windowAt2d A size r c := by
  constructor
  · have hlt : size / 2 < (sortL (windowAt data 0 size i)).length := by
      rw [length_sortL, length_windowAt]
      omega
    rw [MedianFilter.denoise, scipyMedianFilter1d, getD_map_range _ _ _ _ hi]
    exact (sortL_perm (windowAt data 0 size i)).mem_iff.mp
      (getD_mem_of_lt _ _ _ hlt)
  · have hlt : size * size / 2 < (sortL (windowAt2d A size r c)).length := by
      rw [length_sortL, length_windowAt2d]
      have hpos : 0 < size * size := Nat.mul_pos hs hs
      omega
    rw [MedianFilter.denoise2d, scipyMedianFilter2d, getD_map_range _ _ _ _ hr,
      getD_map_range _ _ _ _ hc]
    exact (sortL_perm (windowAt2d A size r c)).mem_iff.mp
      (getD_mem_of_lt _ _ _ hlt)


/-- Witness for `C4_order_statistic` at concrete 1D and 2D inputs. -/
theorem C4_witness :
    (MedianFilter.denoise [0, 10, 0] 2).getD 1 0 ∈ windowAt [0, 10, 0] 0 2 1 ∧
    ((MedianFilter.denoise2d [[0, 10], [10, 0]] 2).getD 0 []).getD 1 0 ∈
      windowAt2d [[0, 10], [10, 0]] 2 0 1 :=
  C4_order_statistic [0, 10, 0] [[0, 10], [10, 0]] 2 1 0 1
    (by decide) (by decide) (by decide) (by decide)


theorem abs_softThreshold {α : Type} [LinearOrderedField α] (c t : α) (ht : 0 ≤ t) :
    |softThreshold c t| = max (|c| - t) 0 := by
  rcases eq_or_ne c 0 with hc | hc
  · subst hc
    rw [softThreshold]
    simp [max_eq_right (neg_nonpos.mpr ht)]
  · have habs : (0 : α) < |c| := abs_pos.mpr hc
    have h1 : abs (c / |c|) = 1 := by
      rw [abs_div, abs_abs, div_self (ne_of_gt habs)]
    rw [softThreshold, abs_mul, h1, one_mul, abs_of_nonneg (le_max_right _ _)]


/-- C6 counterexample: at `|c| = t` (here `c = t = 1`) the hard threshold
keeps the coefficient unchanged instead of zeroing it, so it is false that
coefficients with `|c|` at or below `t` become exactly zero in both modes. -/
theorem C6_counterexample :
    |(1 : ℚ)| ≤ 1 ∧ hardThreshold (1 : ℚ) 1 = 1 ∧ ¬ hardThreshold (1 : ℚ) 1 = 0 := by
  decide


/-- C6 (amended): for every coefficient `c` and nonnegative threshold `t`,
soft shrinkage satisfies `|shrunk c| ≤ |c|` and is non-increasing in the
threshold; coefficients with `|c| ≤ t` become exactly zero in soft mode;
in hard mode coefficients with `|c|` strictly below `t` become zero, and
those with `|c|` at or above `t` (threshold included) are returned exactly
unchanged. -/
theorem C6_threshold_contract {α : Type} [LinearOrderedField α]
    (c t u : α) (ht : 0 ≤ t) :
    |softThreshold c t| ≤ |c| ∧
    (t ≤ u → |softThreshold c u| ≤ |softThreshold c t|) ∧
    (|c| ≤ t → softThreshold c t = 0) ∧
    (|c| < t → hardThreshold c t = 0) ∧
    (t ≤ |c| → hardThreshold c t = c) := by
  refine ⟨?_, ?_, ?_, ?_, ?_⟩
  · rw [abs_softThreshold c t ht]
    exact max_le (sub_le_self _ ht) (abs_nonneg c)
  · intro htu
    rw [abs_softThreshold c t ht, abs_softThreshold c u (ht.trans htu)]
    exact max_le_max (sub_le_sub_left htu _) le_rfl
  · intro hct
    have h0 : |softThreshold c t| = 0 := by
      rw [abs_softThreshold c t ht]
      exact max_eq_right (sub_nonpos.mpr hct)
    exact abs_eq_zero.mp h0
  · intro hct
    exact if_pos hct
  · intro htc
    exact if_neg (not_lt.mpr htc)


/-- Witness for `C6_threshold_contract` at `c = 5`, `t = 2`, `u = 3`. -/
theorem C6_witness :
    |softThreshold (5 : ℚ) 2| ≤ |(5 : ℚ)| ∧
    ((2 : ℚ) ≤ 3 → |softThreshold (5 : ℚ) 3| ≤ |softThreshold (5 : ℚ) 2|) ∧
    (|(5 : ℚ)| ≤ 2 → softThreshold (5 : ℚ) 2 = 0) ∧
    (|(5 : ℚ)| < 2 → hardThreshold (5 : ℚ) 2 = 0) ∧
    ((2 : ℚ) ≤ |(5 : ℚ)| → hardThreshold (5 : ℚ) 2 = 5) :=
  C6_threshold_contract (5 : ℚ) 2 3 (by norm_num)


/-- C2: on a two-level 2D decomposition whose coarsest-level detail values
are all 10 and whose finest-level detail values are all 1, the code computes
`sigma = 10 / 0.6745` from the coarsest level, while the specification (and
the code's own comment, which says the *highest-frequency* detail
coefficients are used) requires `1 / 0.6745` from the finest level.  The 1D
estimator, by contrast, does use the finest level (last array), as claimed. -/
theorem C2_sigma_finest_level :
    WaveletDenoising.estimate_sigma [[(0 : ℚ)], [10], [1]] = 2000 / 1349 ∧
    WaveletDenoising.sigma2d
      [[[(0 : ℚ)]], [[10], [10], [10]], [[1], [1], [1]]] = 20000 / 1349 ∧
    sigma2dSpecified
      [[[(0 : ℚ)]], [[10], [10], [10]], [[1], [1], [1]]] = 2000 / 1349 := by
  refine ⟨?_, ?_, ?_⟩ <;>
    norm_num [WaveletDenoising.estimate_sigma, WaveletDenoising.sigma2d,
      sigma2dSpecified, medianL, sortL, insertSorted]


/-- C8 counterexample: a NaN sample on the 1D path reaches the decomposition
unreplaced, and on the 2D path an infinite sample is replaced by the largest
finite double, not by zero. -/
theorem C8_counterexample :
    WaveletDenoising.denoise1dPre [FVal.nan] = [FVal.nan] ∧
    FVal.nan ≠ FVal.finite 0 ∧
    WaveletDenoising.denoise2dPre [[FVal.posInf]] = [[FVal.finite float64Max]] ∧
    FVal.finite float64Max ≠ FVal.finite 0 := by
  refine ⟨rfl, by decide, rfl, by norm_num [float64Max]⟩


/-- C8 (amended): the 1D path performs no sanitization at all (its input
reaches the decomposition unchanged), while the 2D path applies
`np.nan_to_num` elementwise before decomposing: NaN samples become zero,
infinite samples become the extreme finite doubles (not zero), finite
samples are untouched — so after the 2D stage every sample is finite. -/
theorem C8_sanitization (data : List FVal) (rows : List (List FVal)) :
    WaveletDenoising.denoise1dPre data = data ∧
    WaveletDenoising.denoise2dPre rows = rows.map (List.map nanToNum) ∧
    nanToNum FVal.nan = FVal.finite 0 ∧
    nanToNum FVal.posInf = FVal.finite float64Max ∧
    nanToNum FVal.negInf = FVal.finite (-float64Max) ∧
    (∀ q : ℚ, nanToNum (FVal.finite q) = FVal.finite q) ∧
    (∀ v : FVal, ∃ q : ℚ, nanToNum v = FVal.finite q) := by
  refine ⟨rfl, rfl, rfl, rfl, rfl, fun q => rfl, fun v => ?_⟩
  cases v with
  | finite q => exact ⟨q, rfl⟩
  | nan => exact ⟨0, rfl⟩
  | posInf => exact ⟨float64Max, rfl⟩
  | negInf => exact ⟨-float64Max, rfl⟩


/-- C5 counterexample: the error raised for the unknown name "foo" lists
only `gaussian`, `moving_average` and `median`, yet "wavelet" (and likewise
"uniform") resolves successfully and is missing from that list — the message
does not list all of the known (resolvable) algorithm names. -/
theorem C5_counterexample :
    DenoisingFactory.create_denoiser "foo" =
      .error ⟨"foo", ["gaussian", "moving_average", "median"]⟩ ∧
    DenoisingFactory.create_denoiser "wavelet" = .ok .wavelet ∧
    DenoisingFactory.create_denoiser "uniform" = .ok .movingAverage ∧
    "wavelet" ∉ ["gaussian", "moving_average", "median"] ∧
    "uniform" ∉ ["gaussian", "moving_average", "median"] := by
  refine ⟨rfl, rfl, rfl, by decide, by decide⟩


/-- C5 (amended): for every (lowercased) name that is none of the five
resolvable strings, resolution fails with an error naming the offending
input and listing the fixed sublist `["gaussian", "moving_average",
"median"]` of the known names — `uniform` and `wavelet`, although
resolvable, are omitted from the list. -/
theorem C5_unknown_name (t : String)
    (h : t ∉ ["gaussian", "moving_average", "uniform", "median", "wavelet"]) :
    DenoisingFactory.create_denoiser t =
      .error ⟨t, ["gaussian", "moving_average", "median"]⟩ := by
  simp only [List.mem_cons, List.not_mem_nil, or_false, not_or] at h
  obtain ⟨h1, h2, h3, h4, h5⟩ := h
  rw [DenoisingFactory.create_denoiser]
  simp only [if_neg h1, if_neg (not_or.mpr ⟨h2, h3⟩), if_neg h4, if_neg h5]
  rfl


/-- Witness for `C5_unknown_name` at the concrete name "foo". -/
theorem C5_witness :
    DenoisingFactory.create_denoiser "foo" =
      .error ⟨"foo", ["gaussian", "moving_average", "median"]⟩ :=
  C5_unknown_name "foo" (by decide)


/-- C9 counterexample: the key "axis" is not a parameter of
`GaussianFilter.__init__`, and resolving "gaussian" with it raises
`TypeError` instead of succeeding with the key ignored. -/
theorem C9_counterexample :
    createDenoiserWith "gaussian" [("axis", PVal.num 0)] =
      FactoryResult.typeError "axis" ∧
    createDenoiserWith "gaussian" [] =
      FactoryResult.ok .gaussian (gaussianSig.map (fun p => (p.key, p.dflt))) := by
  exact ⟨rfl, rfl⟩


/-- C9 (amended): for every resolvable algorithm name, if every supplied
configuration key is a declared constructor parameter then resolution
succeeds and every absent parameter is bound to its default; but a
configuration record containing an unrecognized key makes resolution fail
with a `TypeError` naming that key — unrecognized keys are rejected, not
ignored. -/
theorem C9_kwargs (name : String) (k : DenoiserKind) (kwargs : List (String × PVal))
    (hk : DenoisingFactory.create_denoiser name = Except.ok k) :
    (kwargs.find? (fun kv => !((sigOf k).any (fun p => p.key = kv.1))) = Option.none →
      createDenoiserWith name kwargs =
        FactoryResult.ok k ((sigOf k).map (fun p =>
          (p.key, ((kwargs.find? (fun kv => kv.1 = p.key)).map Prod.snd).getD p.dflt))) ∧
      ∀ p ∈ sigOf k, kwargs.find? (fun kv => kv.1 = p.key) = Option.none →
        (p.key, p.dflt) ∈ ((sigOf k).map (fun p =>
          (p.key, ((kwargs.find? (fun kv => kv.1 = p.key)).map Prod.snd).getD p.dflt)))) ∧
    (∀ kv, kwargs.find? (fun kv => !((sigOf k).any (fun p => p.key = kv.1))) = Option.some kv →
      createDenoiserWith name kwargs = FactoryResult.typeError kv.1) := by
  constructor
  · intro hnone
    have hb : bindKwargs (sigOf k) kwargs =
        Except.ok ((sigOf k).map (fun p =>
          (p.key, ((kwargs.find? (fun kv => kv.1 = p.key)).map Prod.snd).getD p.dflt))) := by
      unfold bindKwargs
      rw [hnone]
    constructor
    · rw [createDenoiserWith, hk]
      show (match bindKwargs (sigOf k) kwargs with
            | Except.error key => FactoryResult.typeError key
            | Except.ok ps => FactoryResult.ok k ps) = _
      rw [hb]
    · intro p hp hfind
      refine List.mem_map.mpr ⟨p, hp, ?_⟩
      rw [hfind]
      rfl
  · intro kv hsome
    have hb : bindKwargs (sigOf k) kwargs = Except.error kv.1 := by
      unfold bindKwargs
      rw [hsome]
    rw [createDenoiserWith, hk]
    show (match bindKwargs (sigOf k) kwargs with
          | Except.error key => FactoryResult.typeError key
          | Except.ok ps => FactoryResult.ok k ps) = _
    rw [hb]


/-- Witness for `C9_kwargs`: resolving "median" with only `size` supplied. -/
theorem C9_witness :
    ([(("size", PVal.num 5))].find?
        (fun kv => !((sigOf .median).any (fun p => p.key = kv.1))) = Option.none →
      createDenoiserWith "median" [("size", PVal.num 5)] =
        FactoryResult.ok .median ((sigOf .median).map (fun p =>
          (p.key, (([(("size", PVal.num 5))].find? (fun kv => kv.1 = p.key)).map
            Prod.snd).getD p.dflt))) ∧
      ∀ p ∈ sigOf .median,
        [(("size", PVal.num 5))].find? (fun kv => kv.1 = p.key) = Option.none →
        (p.key, p.dflt) ∈ ((sigOf .median).map (fun p =>
          (p.key, (([(("size", PVal.num 5))].find? (fun kv => kv.1 = p.key)).map
            Prod.snd).getD p.dflt)))) ∧
    (∀ kv, [(("size", PVal.num 5))].find?
        (fun kv => !((sigOf .median).any (fun p => p.key = kv.1))) = Option.some kv →
      createDenoiserWith "median" [("size", PVal.num 5)] =
        FactoryResult.typeError kv.1) :=
  C9_kwargs "median" .median [("size", PVal.num 5)] rfl


theorem oddify_mod_two (w : ℕ) : oddify w % 2 = 1 := by
  rw [oddify]
  split <;> omega


theorem length_spatialWeights1d (ws : ℕ) (σs : ℝ) :
    (spatialWeights1d ws σs).length = ws := by
  simp [spatialWeights1d]


theorem bilateralWindow_length (data : List ℝ) (half i : ℕ) :
    (bilateralWindow data half i).length =
      min data.length (i + half + 1) - (i - half) := by
  simp only [bilateralWindow, List.length_take, List.length_drop]
  omega


theorem windowSpatialWeights_length (sw : List ℝ) (half n i : ℕ)
    (hsw : sw.length = 2 * half + 1) (hi : i < n) :
    (windowSpatialWeights sw half n i).length =
      min n (i + half + 1) - (i - half) := by
  simp only [windowSpatialWeights, List.length_take, List.length_drop, hsw]
  omega


theorem natCast_sub_helper (x y u v : ℕ) (h : (x : ℤ) - (y : ℤ) = (u : ℤ) - (v : ℤ)) :
    (x : ℝ) - (y : ℝ) = (u : ℝ) - (v : ℝ) := by
  have h2 := congrArg (fun z : ℤ => (z : ℝ)) h
  push_cast at h2
  linarith


theorem getD_drop_take {α : Type} (l : List α) (a b m : ℕ) (d : α)
    (hm : m < b) (hab : a + m < l.length) :
    ((l.drop a).take b).getD m d = l.getD (a + m) d := by
  have hlt : m < ((l.drop a).take b).length := by
    simp only [List.length_take, List.length_drop]
    omega
  rw [List.getD_eq_getElem _ d hlt, List.getD_eq_getElem _ d hab]
  rw [List.getElem_take]
  rw [List.getElem_drop]


/-- C10: at every position `i` — interior or edge — the slice taken from the
precomputed spatial kernel has exactly the window's length, and its `m`-th
entry, the weight applied to the sample at index `start + m` (signed offset
`d = start + m - i` from the center), equals `exp(-0.5 * (d / σ)^2)`: edge
positions use exactly the interior weighting restricted to the valid
offsets. -/
theorem C10_kernel_slice (data : List ℝ) (σs : ℝ) (w i : ℕ)
    (hi : i < data.length) :
    (windowSpatialWeights (spatialWeights1d (oddify w) σs)
        (oddify w / 2) data.length i).length =
      (bilateralWindow data (oddify w / 2) i).length ∧
    ∀ m, m < (windowSpatialWeights (spatialWeights1d (oddify w) σs)
        (oddify w / 2) data.length i).length →
      (windowSpatialWeights (spatialWeights1d (oddify w) σs)
          (oddify w / 2) data.length i).getD m 0 =
        Real.exp (-(1 / 2) *
          (((((i - oddify w / 2) + m : ℕ) : ℝ) - (i : ℝ)) / σs) ^ 2) := by
  have hmod : oddify w % 2 = 1 := oddify_mod_two w
  have hws : (spatialWeights1d (oddify w) σs).length = 2 * (oddify w / 2) + 1 := by
    rw [length_spatialWeights1d]
    omega
  have hlen := windowSpatialWeights_length (spatialWeights1d (oddify w) σs)
    (oddify w / 2) data.length i hws hi
  refine ⟨by rw [hlen, bilateralWindow_length], ?_⟩
  intro m hm
  rw [hlen] at hm
  have ha : oddify w / 2 - (i - (i - oddify w / 2)) + m <
      (spatialWeights1d (oddify w) σs).length := by
    rw [hws]
    omega
  rw [windowSpatialWeights, getD_drop_take _ _ _ _ _ (by omega) ha]
  rw [length_spatialWeights1d] at ha
  rw [spatialWeights1d, getD_map_range _ _ _ _ ha]
  have hc : ((oddify w / 2 - (i - (i - oddify w / 2)) + m : ℕ) : ℝ) -
        ((oddify w / 2 : ℕ) : ℝ) =
      (((i - oddify w / 2) + m : ℕ) : ℝ) - ((i : ℕ) : ℝ) :=
    natCast_sub_helper _ _ _ _ (by omega)
  rw [hc]


/-- Witness for `C10_kernel_slice`: window 5 at the left edge (`i = 0`) of a
three-sample signal. -/
theorem C10_witness :
    (windowSpatialWeights (spatialWeights1d (oddify 5) 1)
        (oddify 5 / 2) ([0, 1, 2] : List ℝ).length 0).length =
      (bilateralWindow [0, 1, 2] (oddify 5 / 2) 0).length ∧
    ∀ m, m < (windowSpatialWeights (spatialWeights1d (oddify 5) 1)
        (oddify 5 / 2) ([0, 1, 2] : List ℝ).length 0).length →
      (windowSpatialWeights (spatialWeights1d (oddify 5) 1)
          (oddify 5 / 2) ([0, 1, 2] : List ℝ).length 0).getD m 0 =
        Real.exp (-(1 / 2) *
          (((((0 - oddify 5 / 2) + m : ℕ) : ℝ) - ((0 : ℕ) : ℝ)) / 1) ^ 2) :=
  C10_kernel_slice [0, 1, 2] 1 5 0 (by norm_num)


theorem sum_map_div (l : List ℝ) (S : ℝ) :
    (l.map (fun v => v / S)).sum = l.sum / S := by
  induction l with
  | nil => simp
  | cons a t ih => simp [ih, add_div]


theorem sum2d_map2d_div (A : List (List ℝ)) (S : ℝ) :
    sum2d (map2d (fun v => v / S) A) = sum2d A / S := by
  induction A with
  | nil => simp [sum2d, map2d]
  | cons r t ih =>
      simp only [map2d, List.map_cons, sum2d, List.sum_cons] at ih ⊢
      rw [sum_map_div, ih, add_div]


/-- C3: at every output position of the bilateral filter, 1D or 2D, if the
sum of the combined spatial-and-intensity weights over the window is
strictly positive the output is the weighted average of the window samples
with the weights normalized to sum exactly 1, and otherwise the output is
the center sample unchanged — the division by the weight sum only ever
happens under the positivity guard. -/
theorem C3_degenerate_weight_fallback (data : List ℝ) (A : List (List ℝ))
    (σs σi : ℝ) (w i r c : ℕ) (hi : i < data.length)
    (hr : r < A.length) (hc : c < ncols A) :
    ((BilateralFilter.filter1d data σs σi w).getD i 0 =
        bilateralStep1d data σs σi (oddify w) i ∧
      (0 < (totalWeights data σs σi (oddify w) i).sum →
        bilateralStep1d data σs σi (oddify w) i =
          (List.zipWith (fun a b => a * b) (bilateralWindow data (oddify w / 2) i)
            ((totalWeights data σs σi (oddify w) i).map
              (fun v => v / (totalWeights data σs σi (oddify w) i).sum))).sum ∧
        ((totalWeights data σs σi (oddify w) i).map
          (fun v => v / (totalWeights data σs σi (oddify w) i).sum)).sum = 1) ∧
      (¬ 0 < (totalWeights data σs σi (oddify w) i).sum →
        bilateralStep1d data σs σi (oddify w) i = data.getD i 0)) ∧
    (((BilateralFilter.filter2d A σs σi w).getD r []).getD c 0 =
        bilateralStep2d A σs σi (oddify w) r c ∧
      (0 < sum2d (totalWeights2d A σs σi (oddify w) r c) →
        bilateralStep2d A σs σi (oddify w) r c =
          sum2d (zipWith2d (fun a b => a * b) (bilateralWindow2d A (oddify w / 2) r c)
            (map2d (fun v => v / sum2d (totalWeights2d A σs σi (oddify w) r c))
              (totalWeights2d A σs σi (oddify w) r c))) ∧
        sum2d (map2d (fun v => v / sum2d (totalWeights2d A σs σi (oddify w) r c))
          (totalWeights2d A σs σi (oddify w) r c)) = 1) ∧
      (¬ 0 < sum2d (totalWeights2d A σs σi (oddify w) r c) →
        bilateralStep2d A σs σi (oddify w) r c = mget A r c)) := by
  refine ⟨⟨?_, ?_, ?_⟩, ⟨?_, ?_, ?_⟩⟩
  · rw [BilateralFilter.filter1d, getD_map_range _ _ _ _ hi]
  · intro h
    refine ⟨if_pos h, ?_⟩
    rw [sum_map_div, div_self (ne_of_gt h)]
  · intro h
    exact if_neg h
  · rw [BilateralFilter.filter2d, getD_map_range _ _ _ _ hr,
      getD_map_range _ _ _ _ hc]
  · intro h
    refine ⟨if_pos h, ?_⟩
    rw [sum2d_map2d_div, div_self (ne_of_gt h)]
  · intro h
    exact if_neg h


/-! Helper lemmas for the `intensity_sigma → ∞` limit (C7). -/

theorem tendsto_intensity_one (s c : ℝ) :
    Filter.Tendsto (fun t : ℝ => Real.exp (-(1 / 2) * ((s - c) / t) ^ 2))
      Filter.atTop (nhds 1) := by
  have h1 : Filter.Tendsto (fun t : ℝ => (s - c) / t) Filter.atTop (nhds 0) := by
    simpa [div_eq_mul_inv] using tendsto_inv_atTop_zero.const_mul (s - c)
  have h2 : Filter.Tendsto (fun t : ℝ => -(1 / 2) * ((s - c) / t) ^ 2)
      Filter.atTop (nhds 0) := by
    simpa using (h1.pow 2).const_mul (-(1 / 2 : ℝ))
  have h3 := (Real.continuous_exp.tendsto 0).comp h2
  simpa using h3


theorem tendsto_den_core (sw win : List ℝ) (c : ℝ) (hlen : sw.length = win.length) :
    Filter.Tendsto (fun t : ℝ => (List.zipWith (fun a b => a * b) sw
        (win.map (fun s => Real.exp (-(1 / 2) * ((s - c) / t) ^ 2)))).sum)
      Filter.atTop (nhds sw.sum) := by
  induction sw generalizing win with
  | nil =>
    simp only [List.zipWith_nil_left, List.sum_nil]
    exact tendsto_const_nhds
  | cons a sw ih =>
    cases win with
    | nil => simp at hlen
    | cons b win =>
      have hlen2 : sw.length = win.length := by simpa using hlen
      have hhead := (tendsto_intensity_one b c).const_mul a
      have := hhead.add (ih win hlen2)
      simpa using this


theorem tendsto_num_core (sw win : List ℝ) (c : ℝ) (hlen : sw.length = win.length) :
    Filter.Tendsto (fun t : ℝ => (List.zipWith (fun a b => a * b) win
        (List.zipWith (fun a b => a * b) sw
          (win.map (fun s => Real.exp (-(1 / 2) * ((s - c) / t) ^ 2))))).sum)
      Filter.atTop (nhds ((List.zipWith (fun a b => a * b) win sw).sum)) := by
  induction sw generalizing win with
  | nil =>
    simp only [List.zipWith_nil_left, List.zipWith_nil_right, List.sum_nil]
    exact tendsto_const_nhds
  | cons a sw ih =>
    cases win with
    | nil => simp at hlen
    | cons b win =>
      have hlen2 : sw.length = win.length := by simpa using hlen
      have hhead := ((tendsto_intensity_one b c).const_mul a).const_mul b
      have := hhead.add (ih win hlen2)
      simpa using this


theorem zipWith_mul_pos (u v : List ℝ) (hu : ∀ x ∈ u, 0 < x) (hv : ∀ x ∈ v, 0 < x) :
    ∀ x ∈ List.zipWith (fun a b => a * b) u v, 0 < x := by
  induction u generalizing v with
  | nil => simp
  | cons a u ih =>
    cases v with
    | nil => simp
    | cons b v =>
      intro x hx
      rcases List.mem_cons.mp hx with hx | hx
      · subst hx
        exact mul_pos (hu a (List.mem_cons_self a u)) (hv b (List.mem_cons_self b v))
      · exact ih v (fun y hy => hu y (List.mem_cons_of_mem a hy))
          (fun y hy => hv y (List.mem_cons_of_mem b hy)) x hx


theorem mem_spatialWeights1d_pos (ws : ℕ) (σs : ℝ) :
    ∀ x ∈ spatialWeights1d ws σs, 0 < x := by
  intro x hx
  simp only [spatialWeights1d, List.mem_map] at hx
  obtain ⟨k, _, rfl⟩ := hx
  exact Real.exp_pos _


theorem mem_windowSpatialWeights_pos (ws half n i : ℕ) (σs : ℝ) :
    ∀ x ∈ windowSpatialWeights (spatialWeights1d ws σs) half n i, 0 < x := by
  intro x hx
  exact mem_spatialWeights1d_pos ws σs x
    (List.drop_subset _ _ (List.take_subset _ _ hx))


theorem zipWith_mul_map_div (u l : List ℝ) (S : ℝ) :
    List.zipWith (fun a b => a * b) u (l.map (fun v => v / S)) =
      (List.zipWith (fun a b => a * b) u l).map (fun v => v / S) := by
  induction u generalizing l with
  | nil => simp
  | cons a u ih =>
    cases l with
    | nil => simp
    | cons b l => simp [ih, mul_div_assoc]


/-- C7: as `intensity_sigma → ∞` (so every intensity weight tends to 1), the
1D bilateral filter's output at every position converges to the pure
spatial-Gaussian-weighted average of the window samples. -/
theorem C7_intensity_sigma_limit (data : List ℝ) (σs : ℝ) (w i : ℕ)
    (hi : i < data.length) :
    Filter.Tendsto (fun σi => (BilateralFilter.filter1d data σs σi w).getD i 0)
      Filter.atTop (nhds (spatialGaussianAverage1d data σs w i)) := by
  have hmod : oddify w % 2 = 1 := oddify_mod_two w
  have hswlen : (spatialWeights1d (oddify w) σs).length = 2 * (oddify w / 2) + 1 := by
    rw [length_spatialWeights1d]
    omega
  have hwsw := windowSpatialWeights_length (spatialWeights1d (oddify w) σs)
    (oddify w / 2) data.length i hswlen hi
  have hwin := bilateralWindow_length data (oddify w / 2) i
  have hlen : (windowSpatialWeights (spatialWeights1d (oddify w) σs)
      (oddify w / 2) data.length i).length =
      (bilateralWindow data (oddify w / 2) i).length := by
    rw [hwsw, hwin]
  have hwinpos : 0 < (bilateralWindow data (oddify w / 2) i).length := by
    rw [hwin]
    omega
  have hSpos : 0 < (windowSpatialWeights (spatialWeights1d (oddify w) σs)
      (oddify w / 2) data.length i).sum := by
    refine List.sum_pos _ (mem_windowSpatialWeights_pos _ _ _ _ _) ?_
    intro hnil
    rw [hnil] at hlen
    simp at hlen
    omega
  have htwpos : ∀ t : ℝ, ∀ x ∈ totalWeights data σs t (oddify w) i, 0 < x := by
    intro t
    refine zipWith_mul_pos _ _ (mem_windowSpatialWeights_pos _ _ _ _ _) ?_
    intro x hx
    simp only [intensityWeights, List.mem_map] at hx
    obtain ⟨s, _, rfl⟩ := hx
    exact Real.exp_pos _
  have htwne : ∀ t : ℝ, totalWeights data σs t (oddify w) i ≠ [] := by
    intro t hnil
    have h := congrArg List.length hnil
    simp only [totalWeights, List.length_zipWith, List.length_nil,
      intensityWeights, List.length_map] at h
    rw [hwsw, hwin] at h
    omega
  have htwsum : ∀ t : ℝ, 0 < (totalWeights data σs t (oddify w) i).sum :=
    fun t => List.sum_pos _ (htwpos t) (htwne t)
  have hquot := (tendsto_num_core
      (windowSpatialWeights (spatialWeights1d (oddify w) σs) (oddify w / 2) data.length i)
      (bilateralWindow data (oddify w / 2) i) (data.getD i 0) hlen).div
    (tendsto_den_core
      (windowSpatialWeights (spatialWeights1d (oddify w) σs) (oddify w / 2) data.length i)
      (bilateralWindow data (oddify w / 2) i) (data.getD i 0) hlen)
    (ne_of_gt hSpos)
  refine hquot.congr ?_
  intro t
  rw [BilateralFilter.filter1d, getD_map_range _ _ _ _ hi,
    bilateralStep1d, if_pos (htwsum t), zipWith_mul_map_div, sum_map_div]
  rfl


/-- Witness for `C7_intensity_sigma_limit` on the spec's concrete scenario:
window 3, `spatial_sigma = 1`, input `[0, 10, 0, 10, 0]`, center position. -/
theorem C7_witness :
    Filter.Tendsto
      (fun σi => (BilateralFilter.filter1d [0, 10, 0, 10, 0] 1 σi 3).getD 2 0)
      Filter.atTop (nhds (spatialGaussianAverage1d [0, 10, 0, 10, 0] 1 3 2)) :=
  C7_intensity_sigma_limit [0, 10, 0, 10, 0] 1 3 2 (by norm_num)


/-- Witness for `C3_degenerate_weight_fallback` at a one-sample signal and a
1×1 matrix. -/
theorem C3_witness :
    (BilateralFilter.filter1d [0] 1 1 3).getD 0 0 =
      bilateralStep1d [0] 1 1 (oddify 3) 0 :=
  (C3_degenerate_weight_fallback [0] [[0]] 1 1 3 0 0 0 (by norm_num)
    (by norm_num) (by norm_num [ncols])).1.1


/-! Shape lemmas for C1. -/

theorem map_length_map_range {α : Type} (m n : ℕ) (f : ℕ → ℕ → α) :
    (((List.range m).map (fun i => (List.range n).map (f i))).map List.length) =
      List.replicate m n := by
  rw [List.map_map]
  have h : (List.length ∘ fun i => (List.range n).map (f i)) = fun _ => n := by
    funext i
    simp
  rw [h, List.map_const']
  simp


theorem rect_map_length {α : Type} (A : List (List α)) (n : ℕ)
    (h : ∀ r ∈ A, r.length = n) :
    A.map List.length = List.replicate A.length n := by
  refine List.eq_replicate_iff.mpr ⟨by simp, ?_⟩
  intro b hb
  obtain ⟨r, hr, rfl⟩ := List.mem_map.mp hb
  exact h r hr


theorem map_length_correlateAxis1 (B : List (List ℝ)) (k : List ℝ) :
    (correlateAxis1 B k).map List.length = B.map List.length := by
  rw [correlateAxis1, List.map_map]
  refine List.map_congr_left ?_
  intro row _
  simp [correlate1d]


theorem map_length_uniformAxis1 (B : List (List ℝ)) (ws : ℕ) :
    (uniformAxis1 B ws).map List.length = B.map List.length := by
  rw [uniformAxis1, List.map_map]
  refine List.map_congr_left ?_
  intro row _
  simp [uniformFilter1d]


/-- C1: every filter preserves the shape of its input, 1D and 2D — for the
wavelet pipeline under pywt's guarantee that reconstruction is never shorter
than the decomposed input (the crop then restores the exact shape). -/
theorem C1_shape_preservation :
    (∀ (data : List ℝ) (σ : ℝ),
      (GaussianFilter.denoise1d data σ).length = data.length) ∧
    (∀ (A : List (List ℝ)) (σ : ℝ), (∀ r ∈ A, r.length = ncols A) →
      (GaussianFilter.denoise2d A σ).map List.length = A.map List.length) ∧
    (∀ (data : List ℝ) (ws : ℕ),
      (MovingAverageFilter.denoise1d data ws).length = data.length) ∧
    (∀ (A : List (List ℝ)) (ws : ℕ), (∀ r ∈ A, r.length = ncols A) →
      (MovingAverageFilter.denoise2d A ws).map List.length = A.map List.length) ∧
    (∀ (data : List ℚ) (size : ℕ),
      (MedianFilter.denoise data size).length = data.length) ∧
    (∀ (A : List (List ℚ)) (size : ℕ), (∀ r ∈ A, r.length = ncols A) →
      (MedianFilter.denoise2d A size).map List.length = A.map List.length) ∧
    (∀ (data : List ℝ) (σs σi : ℝ) (w : ℕ),
      (BilateralFilter.filter1d data σs σi w).length = data.length) ∧
    (∀ (A : List (List ℝ)) (σs σi : ℝ) (w : ℕ), (∀ r ∈ A, r.length = ncols A) →
      (BilateralFilter.filter2d A σs σi w).map List.length = A.map List.length) ∧
    (∀ (wavedec : List ℝ → List (List ℝ)) (waverec : List (List ℝ) → List ℝ)
        (soft : Bool) (mult : ℝ) (data : List ℝ),
      data.length ≤
          (waverec (WaveletDenoising.thresholded1d wavedec soft mult data)).length →
      (WaveletDenoising.denoise1d wavedec waverec soft mult data).length =
        data.length) ∧
    (∀ (wavedec2 : List (List ℝ) → List (List (List ℝ)))
        (waverec2 : List (List (List ℝ)) → List (List ℝ)) (soft : Bool) (mult : ℝ)
        (A : List (List ℝ)), (∀ r ∈ A, r.length = ncols A) →
      A.length ≤
          (waverec2 (WaveletDenoising.thresholded2d wavedec2 soft mult A)).length →
      (∀ row ∈ waverec2 (WaveletDenoising.thresholded2d wavedec2 soft mult A),
        ncols A ≤ row.length) →
      (WaveletDenoising.denoise2d wavedec2 waverec2 soft mult A).map List.length =
        A.map List.length) := by
  refine ⟨?_, ?_, ?_, ?_, ?_, ?_, ?_, ?_, ?_, ?_⟩
  · intro data σ
    simp [GaussianFilter.denoise1d, correlate1d]
  · intro A σ h
    rw [GaussianFilter.denoise2d, map_length_correlateAxis1, correlateAxis0,
      map_length_map_range, rect_map_length A (ncols A) h]
  · intro data ws
    simp [MovingAverageFilter.denoise1d, uniformFilter1d]
  · intro A ws h
    rw [MovingAverageFilter.denoise2d, map_length_uniformAxis1, uniformAxis0,
      map_length_map_range, rect_map_length A (ncols A) h]
  · intro data size
    simp [MedianFilter.denoise, scipyMedianFilter1d]
  · intro A size h
    rw [MedianFilter.denoise2d, scipyMedianFilter2d,
      map_length_map_range, rect_map_length A (ncols A) h]
  · intro data σs σi w
    simp [BilateralFilter.filter1d]
  · intro A σs σi w h
    rw [BilateralFilter.filter2d, map_length_map_range,
      rect_map_length A (ncols A) h]
  · intro wavedec waverec soft mult data hge
    rw [WaveletDenoising.denoise1d]
    split_ifs with hne
    · rw [List.length_take]
      omega
    · omega
  · intro wavedec2 waverec2 soft mult A hrect hrows hcols
    rw [WaveletDenoising.denoise2d, List.map_map, rect_map_length A (ncols A) hrect]
    refine List.eq_replicate_iff.mpr ⟨?_, ?_⟩
    · simp only [List.length_map, List.length_take]
      omega
    · intro b hb
      obtain ⟨row, hrow, rfl⟩ := List.mem_map.mp hb
      have hmem : row ∈ waverec2 (WaveletDenoising.thresholded2d wavedec2 soft mult A) :=
        List.take_subset _ _ hrow
      simp only [Function.comp_apply, List.length_take]
      exact Nat.min_eq_left (hcols row hmem)


/-- Witness for `C1_shape_preservation`, instantiating every conjunct at a
small concrete input (with `waverec`s satisfying the length guarantee). -/
theorem C1_witness :
    (GaussianFilter.denoise1d [0] 1).length = ([0] : List ℝ).length ∧
    (GaussianFilter.denoise2d [[0]] 1).map List.length =
      ([[0]] : List (List ℝ)).map List.length ∧
    (MovingAverageFilter.denoise1d [0] 3).length = ([0] : List ℝ).length ∧
    (MovingAverageFilter.denoise2d [[0]] 3).map List.length =
      ([[0]] : List (List ℝ)).map List.length ∧
    (MedianFilter.denoise [0] 3).length = ([0] : List ℚ).length ∧
    (MedianFilter.denoise2d [[0]] 3).map List.length =
      ([[0]] : List (List ℚ)).map List.length ∧
    (BilateralFilter.filter1d [0] 1 1 3).length = ([0] : List ℝ).length ∧
    (BilateralFilter.filter2d [[0]] 1 1 3).map List.length =
      ([[0]] : List (List ℝ)).map List.length ∧
    (WaveletDenoising.denoise1d (fun x => [x]) (fun _ => [0]) true 1 [0]).length =
      ([0] : List ℝ).length ∧
    (WaveletDenoising.denoise2d (fun x => [x.map id]) (fun _ => [[0]]) true 1
        [[0]]).map List.length = ([[0]] : List (List ℝ)).map List.length := by
  refine ⟨C1_shape_preservation.1 [0] 1,
    C1_shape_preservation.2.1 [[0]] 1 (by simp [ncols]),
    C1_shape_preservation.2.2.1 [0] 3,
    C1_shape_preservation.2.2.2.1 [[0]] 3 (by simp [ncols]),
    C1_shape_preservation.2.2.2.2.1 [0] 3,
    C1_shape_preservation.2.2.2.2.2.1 [[0]] 3 (by simp [ncols]),
    C1_shape_preservation.2.2.2.2.2.2.1 [0] 1 1 3,
    C1_shape_preservation.2.2.2.2.2.2.2.1 [[0]] 1 1 3 (by simp [ncols]),
    C1_shape_preservation.2.2.2.2.2.2.2.2.1 (fun x => [x]) (fun _ => [0]) true 1 [0]
      (by norm_num),
    C1_shape_preservation.2.2.2.2.2.2.2.2.2 (fun x => [x.map id]) (fun _ => [[0]])
      true 1 [[0]] (by simp [ncols]) (by norm_num) (by simp [ncols])⟩


end DAS
